import Mathlib

/-!
Shallow embedding of the http-load-tester repository (src/main.py and
src/NewerVersionMain2.py) and proofs about it.

Modelling conventions:
- Byte strings are modelled as Lean String (the code decodes with
  errors-ignore, which we model as the identity on the already-decoded text).
- Network effects are modelled by an explicit oracle (NetEnv) that says, for
  each socket operation of one request, whether it succeeds and what it
  returns; exceptions raised by a Python operation are the .error branch.
- The thread pool is modelled as an interleaving small-step semantics: each
  worker is a program counter, shared state is the queue depth, the unfinished
  task count of queue.join, and the two outcome counters; one transition is
  one atomic action of one worker (the counter increments are atomic in the
  code because they happen under self.lock).
-/

/-- Python str.startswith("Error:"), the worker classification test used in
both variants (main.py line 80, NewerVersionMain2.py line 120). -/
def startswithError (s : String) : Bool :=
  "Error:".data.isPrefixOf s.data

/-- The fixed User-Agent pool of main.py (lines 9-13). -/
def USER_AGENTS : List String :=
  ["Mozilla/5.0 (Windows NT 10.0; Win64; x64) AppleWebKit/537.36 (KHTML, like Gecko) Chrome/114.0.0.0 Safari/537.36",
   "Mozilla/5.0 (Macintosh; Intel Mac OS X 12_5) AppleWebKit/605.1.15 (KHTML, like Gecko) Version/15.1 Safari/605.1.15",
   "Mozilla/5.0 (X11; Ubuntu; Linux x86_64; rv:114.0) Gecko/20100101 Firefox/114.0"]

/-- The fixed User-Agent pool of NewerVersionMain2.py (lines 19-27). -/
def USER_AGENTS2 : List String :=
  ["Mozilla/5.0 (Windows NT 10.0; Win64; x64)...",
   "Mozilla/5.0 (X11; Ubuntu; Linux x86_64; rv:114.0)...",
   "Mozilla/5.0 (Macintosh; Intel Mac OS X 12_5)...",
   "Mozilla/5.0 (Windows NT 6.1; WOW64)...",
   "Mozilla/5.0 (Linux; Android 10; SM-G973F)...",
   "Mozilla/5.0 (compatible; Googlebot/2.1; +http://www.google.com/bot.html)",
   "curl/7.79.1"]

/-- random.choice(USER_AGENTS): the random source is made explicit as an
index i; the chosen element is pool[i % len(pool)]. -/
def get_random_user_agent (pool : List String) (i : Nat) : String :=
  pool.getD (i % pool.length) ""

/-- The request line list built by raw_http_request in both variants
(main.py lines 28-36, NewerVersionMain2.py lines 67-75): start line, Host,
User-Agent, the caller-supplied headers in order, Connection: close, and the
empty terminator line. -/
def request_lines (method path host : String) (headers : List (String × String))
    (ua : String) : List String :=
  [method ++ " " ++ path ++ " HTTP/1.1",
   "Host: " ++ host,
   "User-Agent: " ++ ua]
  ++ headers.map (fun kv => kv.1 ++ ": " ++ kv.2)
  ++ ["Connection: close", ""]

deriving instance DecidableEq for Except

/-- The arguments of raw_http_request that matter to the model. -/
structure SockConfig where
  host : String
  port : Nat
  use_ssl : Bool
  method : String
  path : String
  headers : List (String × String)
deriving Repr, DecidableEq

/-- Oracle for the socket operations of one request execution.  Each field
gives the outcome of the corresponding Python call; .error e means the call
raises an exception whose rendered message is e. recvs lists the successive
results of sock.recv(4096); a .ok "" entry is the end-of-stream signal. -/
structure NetEnv where
  connect : Except String Unit
  sslWrap : Except String Unit
  send : Except String Unit
  recvs : List (Except String String)
  uaIdx : Nat
deriving Repr, DecidableEq

/-- Result of executing the body of raw_http_request, together with the
socket bookkeeping needed to reason about resource release: body is the try
block outcome (.error carries the exception message that the except clause
will format), opened records whether a socket was created, closed whether
sock.close() ran before the function returned. -/
structure ExecResult where
  body : Except String String
  opened : Bool
  closed : Bool
deriving Repr, DecidableEq

/-- The read loop of raw_http_request (main.py lines 42-47,
NewerVersionMain2.py lines 83-88): accumulate recv results until an empty
chunk breaks the loop; a raising recv aborts the whole try block.  An
exhausted oracle list is read as end-of-stream. -/
def readLoop : List (Except String String) → String → Except String String
  | [], acc => .ok acc
  | .error e :: _, acc => .error e
  | .ok s :: rest, acc => if s = "" then .ok acc else readLoop rest (acc ++ s)

/-- raw_http_request (main.py lines 18-51, NewerVersionMain2.py lines 57-94)
run against the oracle env: create the connection, optionally wrap in TLS,
build and send the request, drain the response, close the socket.  The happy
path is the only path that executes sock.close(). -/
def rawExec (pool : List String) (env : NetEnv) (cfg : SockConfig) : ExecResult :=
  match env.connect with
  | .error e => ⟨.error e, false, false⟩
  | .ok _ =>
    match (if cfg.use_ssl then env.sslWrap else .ok ()) with
    | .error e => ⟨.error e, true, false⟩
    | .ok _ =>
      let _reqLines := request_lines cfg.method cfg.path cfg.host cfg.headers
        (get_random_user_agent pool env.uaIdx)
      match env.send with
      | .error e => ⟨.error e, true, false⟩
      | .ok _ =>
        match readLoop env.recvs "" with
        | .error e => ⟨.error e, true, false⟩
        | .ok resp => ⟨.ok resp, true, true⟩

/-- The string raw_http_request returns to the worker: the decoded response
on success, otherwise the except-clause format "Error: " + message. -/
def raw_http_request (pool : List String) (env : NetEnv) (cfg : SockConfig) : String :=
  match (rawExec pool env cfg).body with
  | .ok s => s
  | .error e => "Error: " ++ e

/-- The per-instance counters of the main.py LoadTester (lines 65-66) and the
locked update of its worker (lines 79-83). -/
structure AggMain where
  success : Nat
  errors : Nat
deriving Repr, DecidableEq

/-- main.py worker lines 79-83: classify the returned string and bump one
counter under the lock. -/
def recordMain (a : AggMain) (response : String) : AggMain :=
  if startswithError response then
    { a with errors := a.errors + 1 }
  else
    { a with success := a.success + 1 }

/-- The module-level Prometheus counters of NewerVersionMain2.py
(lines 30-31); they live outside any LoadTester instance. -/
structure Globals where
  requests_total : Nat
  requests_failed : Nat
deriving Repr, DecidableEq

/-- The per-instance mutable state of the NewerVersionMain2 LoadTester that
the worker updates (lines 110-112): counters plus the response sample list. -/
structure AggV2 where
  success : Nat
  errors : Nat
  responses : List String
deriving Repr, DecidableEq

/-- NewerVersionMain2.py worker lines 119-126: under the lock, classify the
returned string; on failure bump errors and the failed metric, on success
bump success and the total metric and append the 200-character prefix of the
response to self.responses. -/
def recordV2 (s : Globals × AggV2) (response : String) : Globals × AggV2 :=
  if startswithError response then
    ({ s.1 with requests_failed := s.1.requests_failed + 1 },
     { s.2 with errors := s.2.errors + 1 })
  else
    ({ s.1 with requests_total := s.1.requests_total + 1 },
     { s.2 with success := s.2.success + 1,
                responses := s.2.responses ++ [response.take 200] })

/-- A fresh NewerVersionMain2 LoadTester instance state (lines 110-112). -/
def aggV2Init : AggV2 := ⟨0, 0, []⟩

/-- The sample entries the final report shows: self.responses[:3]
(NewerVersionMain2.py line 160). -/
def reportedSamples (a : AggV2) : List String :=
  a.responses.take 3

/-- One engine invocation of the NewerVersionMain2 variant, viewed through
the serialization of its locked record sections: a fresh instance records the
given response strings in order, while the module-level counters are carried
in from whatever earlier runs left there. -/
def runEngine (g : Globals) (responses : List String) : Globals × AggV2 :=
  responses.foldl recordV2 (g, aggV2Init)

/-- The spec's ConfigError. Neither source variant defines or raises it; it
is needed to state claims about rejected configurations. -/
inductive ConfigError where
  | configError (msg : String)
deriving Repr, DecidableEq

/-- The fields LoadTester.__init__ stores (main.py lines 54-66,
NewerVersionMain2.py lines 98-112).  concurrency and total_requests are kept
as Int because Python accepts any integer here. -/
structure LoadTester where
  host : String
  port : Nat
  use_ssl : Bool
  path : String
  concurrency : Int
  total_requests : Int
  success : Nat
  errors : Nat
deriving Repr, DecidableEq

/-- LoadTester.__init__ of both variants: it stores the arguments and fresh
counters and performs no validation at all, so construction never fails; the
Except result type makes the (absent) rejection path expressible. -/
def LoadTester.init (host : String) (port : Nat) (use_ssl : Bool) (path : String)
    (concurrency total_requests : Int) : Except ConfigError LoadTester :=
  .ok ⟨host, port, use_ssl, path, concurrency, total_requests, 0, 0⟩

/-! ## Interleaving semantics of the worker pool

Each worker thread is a program counter; one transition is one atomic action
of one worker.  Shared state: queue is the number of work units still in the
Queue, unfinished is Queue.unfinished_tasks (what queue.join waits on),
success and errors are the two counters.  queue.join() returns exactly when
unfinished = 0.

Program counters: head is the loop entry (the emptiness test), getTry is the
get_nowait call, work is the request plus the locked counter update (the
request touches no shared state and the update is lock-atomic, so one atomic
step is faithful), excInc is the except-branch increment that only the
NewerVersionMain2 worker has, tdone is queue.task_done(), done is a worker
that returned, crashed is a worker killed by the ValueError that task_done
raises when unfinished is already 0. -/

/-- Worker program counters. -/
inductive Wpc where
  | head
  | getTry
  | work
  | excInc
  | tdone
  | done
  | crashed
deriving Repr, DecidableEq

/-- The shared mutable state of one run. -/
structure Shared where
  queue : Nat
  unfinished : Nat
  success : Nat
  errors : Nat
deriving Repr, DecidableEq

/-- One atomic action of the main.py worker (lines 68-87).  ok tells the
oracle-chosen classification of the response of this unit (true counts as
success).  At getTry an empty queue raises Empty, the bare except catches it
and breaks out of the loop. -/
def stepPcA (pc : Wpc) (s : Shared) (ok : Bool) : Option (Wpc × Shared) :=
  match pc with
  | .head => some (if s.queue = 0 then .done else .getTry, s)
  | .getTry =>
    if s.queue = 0 then some (.done, s)
    else some (.work, { s with queue := s.queue - 1 })
  | .work =>
    if ok then some (.tdone, { s with success := s.success + 1 })
    else some (.tdone, { s with errors := s.errors + 1 })
  | .excInc => some (.tdone, { s with errors := s.errors + 1 })
  | .tdone =>
    if s.unfinished = 0 then some (.crashed, s)
    else some (.head, { s with unfinished := s.unfinished - 1 })
  | .done => none
  | .crashed => none

/-- One atomic action of the NewerVersionMain2 worker (lines 114-134).  The
only difference from main.py: get_nowait sits inside the blanket
try/except-Exception, so an Empty raised at getTry jumps to the except
branch, which increments errors (excInc) and then runs the finally
task_done. -/
def stepPcB (pc : Wpc) (s : Shared) (ok : Bool) : Option (Wpc × Shared) :=
  match pc with
  | .getTry =>
    if s.queue = 0 then some (.excInc, s)
    else some (.work, { s with queue := s.queue - 1 })
  | _ => stepPcA pc s ok

/-- A run in flight: the shared state plus one program counter per worker
thread. -/
structure RunState where
  sh : Shared
  workers : List Wpc
deriving Repr, DecidableEq

/-- Let worker i take its next atomic action; none if there is no such
worker or it has terminated. -/
def stepRun (stepPc : Wpc → Shared → Bool → Option (Wpc × Shared))
    (s : RunState) (i : Nat) (ok : Bool) : Option RunState :=
  match s.workers.get? i with
  | none => none
  | some pc =>
    match stepPc pc s.sh ok with
    | none => none
    | some (pc2, sh2) => some ⟨sh2, s.workers.set i pc2⟩

/-- Run a chosen schedule: each command names the worker to step and the
oracle classification used if that step is the request step. -/
def runSched (stepPc : Wpc → Shared → Bool → Option (Wpc × Shared))
    (s : RunState) : List (Nat × Bool) → Option RunState
  | [] => some s
  | (i, ok) :: rest =>
    match stepRun stepPc s i ok with
    | none => none
    | some t => runSched stepPc t rest

/-- The state right after LoadTester.run has put total_requests units on the
queue and started the workers (main.py lines 91-99, NewerVersionMain2.py
lines 142-152): every put bumps unfinished, every worker starts at the loop
head; Python range ignores a negative count. -/
def mkRunState (concurrency total_requests : Int) : RunState :=
  ⟨⟨total_requests.toNat, total_requests.toNat, 0, 0⟩,
   List.replicate concurrency.toNat .head⟩

/-- Discriminator for Except results. -/
def isOkE : Except ε α → Bool
  | .ok _ => true
  | .error _ => false

/-- resolve_hostname of NewerVersionMain2.py (lines 37-44): gethostbyname
either yields an address (the some case of the dns oracle) or raises
socket.gaierror, which the function catches, prints, and turns into None. -/
def resolve_hostname (dns : Option String) : Option String :=
  match dns with
  | some ip => some ip
  | none => none

/-- What the start of LoadTester.run does, as observable by the caller:
whether an exception propagates out of run(), how many workers were started,
how many units were enqueued, and whether the Running stage (workers active)
was reached. -/
structure RunStartV2 where
  raised : Bool
  workersStarted : Nat
  unitsEnqueued : Nat
  reachedRunning : Bool
deriving Repr, DecidableEq

/-- NewerVersionMain2.py LoadTester.run lines 136-152: resolve the host; on
failure print and return (raising nothing, enqueuing nothing, starting no
worker); otherwise enqueue total_requests units and start concurrency
workers. -/
def LoadTester.runStartV2 (t : LoadTester) (dns : Option String) : RunStartV2 :=
  match resolve_hostname dns with
  | none => ⟨false, 0, 0, false⟩
  | some _ => ⟨false, t.concurrency.toNat, t.total_requests.toNat, true⟩

example : startswithError "Error: x" = true := by decide
example : startswithError "" = false := by decide
example : startswithError "HTTP/1.1 200 OK" = false := by decide

/-! ## Concrete fixtures used by the closed theorems -/

/-- A target: GET /x on host h, port 80, no TLS, no extra headers. -/
def cfg0 : SockConfig := ⟨"h", 80, false, "GET", "/x", []⟩

/-- Oracle: create_connection raises. -/
def envConnFail : NetEnv := ⟨.error "timed out", .ok (), .ok (), [], 0⟩

/-- Oracle: connection succeeds, sendall raises. -/
def envSendFail : NetEnv := ⟨.ok (), .ok (), .error "Connection reset by peer", [], 0⟩

/-- Oracle: transfer fully succeeds and the server body itself begins with
the executor error marker. -/
def envTrap : NetEnv := ⟨.ok (), .ok (), .ok (), [.ok "Error: database down", .ok ""], 0⟩

/-- Oracle: connection succeeds and the server closes before sending a byte,
so the first recv returns zero bytes. -/
def envEager : NetEnv := ⟨.ok (), .ok (), .ok (), [.ok ""], 0⟩

/-- The interleaving for concurrency 2, totalRequests 1 in which both workers
pass the emptiness test before the single unit is taken: worker 0 dequeues
the unit, worker 1 hits Empty at get_nowait; then worker 1 runs its except
and finally clauses, worker 0 finishes its request, worker 1 exits, worker 0
calls task_done on an already-drained queue. -/
def schedRace : List (Nat × Bool) :=
  [(0, true), (1, true), (0, true), (1, true), (1, true), (1, true),
   (0, true), (1, true), (0, true)]

/-- A schedule for concurrency 3, totalRequests 2 in which worker 0 performs
both units successfully and then all three workers observe the empty queue
and exit. -/
def schedIdle : List (Nat × Bool) :=
  [(0, true), (0, true), (0, true), (0, true),
   (0, true), (0, true), (0, true), (0, true),
   (0, true), (1, true), (2, true)]

/-! ## Helper lemmas -/

/-- Any string the except clause formats begins with the failure marker the
workers test for. -/
theorem startswithError_error_append (e : String) :
    startswithError ("Error: " ++ e) = true := by
  have h1 : ("Error: " ++ e).data
      = 'E' :: 'r' :: 'r' :: 'o' :: 'r' :: ':' :: ' ' :: e.data := by
    rw [String.data_append]
    rfl
  unfold startswithError
  rw [h1]
  rfl

/-- random.choice over a nonempty pool always yields an element of the
pool. -/
theorem uaPool_mem (pool : List String) (i : Nat) (h : pool ≠ []) :
    get_random_user_agent pool i ∈ pool := by
  have hlt : i % pool.length < pool.length := Nat.mod_lt _ (List.length_pos.mpr h)
  unfold get_random_user_agent
  rw [List.getD_eq_getElem pool "" hlt]
  exact List.getElem_mem hlt

/-- Each recorded success appends exactly one entry to the response sample
list; failures append nothing. -/
theorem foldl_recordV2_responses_len (rs : List String) (g : Globals) (a : AggV2) :
    ((rs.foldl recordV2 (g, a)).2.responses).length
      = a.responses.length + (rs.filter (fun r => !startswithError r)).length := by
  induction rs generalizing g a with
  | nil => simp
  | cons r rest ih =>
    simp only [List.foldl_cons, List.filter_cons]
    by_cases h : startswithError r
    · rw [show recordV2 (g, a) r
          = ({ g with requests_failed := g.requests_failed + 1 },
             { a with errors := a.errors + 1 }) by simp [recordV2, h]]
      rw [ih]
      simp [h]
    · rw [show recordV2 (g, a) r
          = ({ g with requests_total := g.requests_total + 1 },
             { a with success := a.success + 1,
                      responses := a.responses ++ [r.take 200] }) by simp [recordV2, h]]
      rw [ih]
      simp [h]
      omega

/-- The per-instance part of the state after a run does not depend on what
the module-level counters held when the run began. -/
theorem foldl_recordV2_snd_indep (rs : List String) (g g2 : Globals) (a : AggV2) :
    (rs.foldl recordV2 (g, a)).2 = (rs.foldl recordV2 (g2, a)).2 := by
  induction rs generalizing g g2 a with
  | nil => rfl
  | cons r rest ih =>
    simp only [List.foldl_cons]
    by_cases h : startswithError r
    · simp only [recordV2, h, if_pos]
      exact ih _ _ _
    · simp only [recordV2, h, if_neg, Bool.false_eq_true, not_false_iff]
      exact ih _ _ _

/-- The module-level counters end a run at their starting value plus the
successes respectively failures of that run. -/
theorem foldl_recordV2_totals (rs : List String) (g : Globals) (a : AggV2) :
    (rs.foldl recordV2 (g, a)).1.requests_total
      = g.requests_total + (rs.filter (fun r => !startswithError r)).length
    ∧ (rs.foldl recordV2 (g, a)).1.requests_failed
      = g.requests_failed + (rs.filter (fun r => startswithError r)).length := by
  induction rs generalizing g a with
  | nil => simp
  | cons r rest ih =>
    simp only [List.foldl_cons, List.filter_cons]
    by_cases h : startswithError r
    · rw [show recordV2 (g, a) r
          = ({ g with requests_failed := g.requests_failed + 1 },
             { a with errors := a.errors + 1 }) by simp [recordV2, h]]
      rcases ih ({ g with requests_failed := g.requests_failed + 1 })
        ({ a with errors := a.errors + 1 }) with ⟨ih1, ih2⟩
      refine ⟨?_, ?_⟩ <;> simp [h, ih1, ih2] <;> omega
    · rw [show recordV2 (g, a) r
          = ({ g with requests_total := g.requests_total + 1 },
             { a with success := a.success + 1,
                      responses := a.responses ++ [r.take 200] }) by simp [recordV2, h]]
      rcases ih ({ g with requests_total := g.requests_total + 1 })
        ({ a with success := a.success + 1,
                  responses := a.responses ++ [r.take 200] }) with ⟨ih1, ih2⟩
      refine ⟨?_, ?_⟩ <;> simp [h, ih1, ih2] <;> omega

/-! ## Claims -/

/-- C1: with totalRequests = 1 and concurrency = 2 the NewerVersionMain2
worker admits the schedule schedRace in which both workers pass the
emptiness test before the single unit is taken: the loser of the race gets
queue.Empty from get_nowait, its blanket except increments the failure
counter with no dequeued unit, its finally calls task_done and releases the
join, and the winner later crashes on a second task_done; the run ends with
unfinished = 0 (join returned) and success + errors = 2 although only one
unit was pre-loaded.  The main.py worker (stepPcA) refuses the same
schedule, because its bare except around get_nowait breaks out of the loop
instead.  This refutes the claim that every completed run satisfies
successCount + failureCount = N and that no counter is incremented without a
dequeued unit. -/
theorem c1_join_returns_with_miscounted_totals :
    runSched stepPcB (mkRunState 2 1) schedRace
        = some ⟨⟨0, 0, 1, 1⟩, [Wpc.crashed, Wpc.done]⟩
    ∧ runSched stepPcA (mkRunState 2 1) schedRace = none := by decide

set_option maxRecDepth 4000 in
/-- C2 counterexample: after four successfully recorded responses the sample
list of the NewerVersionMain2 instance holds four entries, so it is not
bounded by the claimed capacity 3. -/
theorem c2_sample_buffer_exceeds_capacity :
    ¬ (((runEngine ⟨0, 0⟩ ["a", "b", "c", "d"]).2.responses).length ≤ 3) := by decide

/-- C2 amended: the sample list is unbounded — every success appends one
200-character-truncated entry, so after a run it holds exactly one entry per
success; only the printed report is truncated, to the first three entries
(responses[:3]). -/
theorem c2_sample_buffer_unbounded_report_truncated (g : Globals) (rs : List String) :
    ((runEngine g rs).2.responses).length
      = (rs.filter (fun r => !startswithError r)).length
    ∧ (reportedSamples (runEngine g rs).2).length ≤ 3 := by
  constructor
  · have h := foldl_recordV2_responses_len rs g aggV2Init
    simpa [runEngine, aggV2Init] using h
  · simp [reportedSamples, List.length_take]

/-- C3: for a GET of /x on host h with no extra headers the encoder produces
exactly the start line, the Host line, the User-Agent line, the
Connection-close line and the blank terminator, in that order, and the
chosen User-Agent is always an element of the fixed pool (of either
variant). -/
theorem c3_get_request_line_order :
    (∀ ua : String, request_lines "GET" "/x" "h" [] ua
        = ["GET /x HTTP/1.1", "Host: h", "User-Agent: " ++ ua,
           "Connection: close", ""])
    ∧ (∀ i : Nat, get_random_user_agent USER_AGENTS i ∈ USER_AGENTS
        ∧ get_random_user_agent USER_AGENTS2 i ∈ USER_AGENTS2) := by
  refine ⟨fun ua => rfl, fun i => ⟨?_, ?_⟩⟩
  · exact uaPool_mem USER_AGENTS i (by decide)
  · exact uaPool_mem USER_AGENTS2 i (by decide)

/-- C4 counterexample: when the connection succeeds and sendall raises, the
function returns the error string while the socket it opened is never
closed — there is no finally or context manager in raw_http_request. -/
theorem c4_socket_left_open_on_write_failure :
    (rawExec USER_AGENTS envSendFail cfg0).opened = true
    ∧ (rawExec USER_AGENTS envSendFail cfg0).closed = false := by decide

/-- C4 amended: sock.close() runs exactly on the fully successful path — the
socket is closed iff the try body succeeded; a socket exists iff
create_connection succeeded, so every failure after connect leaves the
socket open when the function returns. -/
theorem c4_socket_closed_iff_full_success (pool : List String) (env : NetEnv)
    (cfg : SockConfig) :
    ((rawExec pool env cfg).closed = true ↔ isOkE (rawExec pool env cfg).body = true)
    ∧ ((rawExec pool env cfg).opened = true ↔ isOkE env.connect = true) := by
  rcases env with ⟨conn, sslw, snd, recvs, ua⟩
  rcases conn with e | u
  · simp [rawExec, isOkE]
  · rcases hs : (if cfg.use_ssl then sslw else Except.ok ()) with e | u2
    · simp [rawExec, hs, isOkE]
    · rcases snd with e | u3
      · simp [rawExec, hs, isOkE]
      · rcases hr : readLoop recvs "" with e | resp
        · simp [rawExec, hs, hr, isOkE]
        · simp [rawExec, hs, hr, isOkE]

/-- C5 counterexample: LoadTester.__init__ accepts concurrency = 0 without
any error — there is no validation and no ConfigError anywhere in either
variant, refuting the claim that concurrency ≤ 0 is rejected at the
Configured stage. -/
theorem c5_zero_concurrency_accepted :
    isOkE (LoadTester.init "example.com" 80 false "/" 0 100) = true := by decide

/-- C5 amended: construction never fails; with concurrency = 0 and
totalRequests = 1 the run starts zero workers, so no transition exists and
the unfinished count stays 1 — queue.join() blocks forever instead of a
ConfigError being raised.  Concurrency = 3 greater than totalRequests = 2 is
indeed accepted and both worker variants can run to completion, all workers
exited, with success + errors = 2. -/
theorem c5_no_validation_and_idle_workers :
    isOkE (LoadTester.init "example.com" 80 false "/" 0 100) = true
    ∧ (∀ (i : Nat) (ok : Bool), stepRun stepPcA (mkRunState 0 1) i ok = none)
    ∧ (mkRunState 0 1).sh.unfinished = 1
    ∧ runSched stepPcA (mkRunState 3 2) schedIdle
        = some ⟨⟨0, 0, 2, 0⟩, [Wpc.done, Wpc.done, Wpc.done]⟩
    ∧ runSched stepPcB (mkRunState 3 2) schedIdle
        = some ⟨⟨0, 0, 2, 0⟩, [Wpc.done, Wpc.done, Wpc.done]⟩ := by
  refine ⟨by decide, ?_, by decide, by decide, by decide⟩
  intro i ok
  rfl

/-- A concrete configured NewerVersionMain2 LoadTester instance. -/
def tester0 : LoadTester := ⟨"example.com", 80, false, "/", 10, 100, 0, 0⟩

/-- C6 counterexample: when resolution fails, run() raises nothing — it
prints a message and returns None exactly like a completed run does, so the
failure is not surfaced to the caller as a ConfigError. -/
theorem c6_resolution_failure_not_config_error :
    (tester0.runStartV2 none).raised = false := by decide

/-- C6 amended: a resolution failure makes run() return early — nothing is
raised, no unit is enqueued, no worker is started, and the Running stage is
never reached; the failure is reported only on standard output, so the
caller cannot distinguish it from a completed run by the returned value. -/
theorem c6_resolution_failure_silent_early_return (t : LoadTester) :
    t.runStartV2 none = ⟨false, 0, 0, false⟩ := rfl

/-- C7 counterexample: running the engine twice with the same single
successful outcome leaves the module-level Prometheus counters at different
values after the second run than after the first — the module-level counters
carry information from one run into the next. -/
theorem c7_prometheus_counters_persist :
    (runEngine (runEngine ⟨0, 0⟩ ["ok"]).1 ["ok"]).1
      ≠ (runEngine ⟨0, 0⟩ ["ok"]).1 := by decide

/-- C7 amended: the per-instance counters, samples and hence the printed
result of a run are independent of whatever the module-level counters held
(each invocation constructs a fresh instance), but the module-level
Prometheus counters requests_total and requests_failed accumulate across
runs by the successes and failures of each run. -/
theorem c7_instance_fresh_globals_accumulate (g : Globals) (rs : List String) :
    (runEngine g rs).2 = (runEngine ⟨0, 0⟩ rs).2
    ∧ (runEngine g rs).1.requests_total
        = g.requests_total + (rs.filter (fun r => !startswithError r)).length
    ∧ (runEngine g rs).1.requests_failed
        = g.requests_failed + (rs.filter (fun r => startswithError r)).length := by
  refine ⟨foldl_recordV2_snd_indep rs g ⟨0, 0⟩ aggV2Init, ?_, ?_⟩
  · exact (foldl_recordV2_totals rs g aggV2Init).1
  · exact (foldl_recordV2_totals rs g aggV2Init).2

/-- C8: whenever any step of the request raises — connect, TLS wrap, write
or read — the exception is absorbed at the function boundary and the caller
receives the plain string Error-colon-space plus the diagnostic message,
which the worker classification then counts as a failure; the function never
propagates the exception. -/
theorem c8_failure_returned_as_error_string (pool : List String) (env : NetEnv)
    (cfg : SockConfig) (e : String)
    (h : (rawExec pool env cfg).body = .error e) :
    raw_http_request pool env cfg = "Error: " ++ e
    ∧ startswithError (raw_http_request pool env cfg) = true := by
  have hv : raw_http_request pool env cfg = "Error: " ++ e := by
    unfold raw_http_request
    rw [h]
  exact ⟨hv, by rw [hv]; exact startswithError_error_append e⟩

/-- C8 witness: the connect-failure oracle instantiates the theorem. -/
theorem c8_failure_returned_as_error_string_witness :
    raw_http_request USER_AGENTS envConnFail cfg0 = "Error: " ++ "timed out"
    ∧ startswithError (raw_http_request USER_AGENTS envConnFail cfg0) = true :=
  c8_failure_returned_as_error_string USER_AGENTS envConnFail cfg0 "timed out" rfl

set_option maxRecDepth 4000 in
/-- C9: the worker classifies solely on the Error-colon test of the returned
string, so a fully successful transfer whose body itself begins with
Error-colon — here the server sends the payload and closes, the socket is
closed on the success path — is recorded as a failure by both variants: the
V2 record increments errors and appends no sample, the main record
increments errors. -/
theorem c9_error_prefixed_body_recorded_as_failure :
    (rawExec USER_AGENTS2 envTrap cfg0).body = .ok "Error: database down"
    ∧ (rawExec USER_AGENTS2 envTrap cfg0).closed = true
    ∧ recordV2 (⟨0, 0⟩, aggV2Init) (raw_http_request USER_AGENTS2 envTrap cfg0)
        = (⟨0, 1⟩, ⟨0, 1, []⟩)
    ∧ recordMain ⟨0, 0⟩ (raw_http_request USER_AGENTS2 envTrap cfg0) = ⟨0, 1⟩ := by
  decide

set_option maxRecDepth 4000 in
/-- C10: a connection the server closes before sending any byte makes the
first recv return zero bytes, the read loop exits, the empty string does not
begin with Error-colon, and both variants record the unit as a success — the
V2 variant even appends the empty sample. -/
theorem c10_zero_byte_read_recorded_as_success :
    (rawExec USER_AGENTS envEager cfg0).body = .ok ""
    ∧ (rawExec USER_AGENTS envEager cfg0).closed = true
    ∧ raw_http_request USER_AGENTS envEager cfg0 = ""
    ∧ recordMain ⟨0, 0⟩ (raw_http_request USER_AGENTS envEager cfg0) = ⟨1, 0⟩
    ∧ recordV2 (⟨0, 0⟩, aggV2Init) (raw_http_request USER_AGENTS envEager cfg0)
        = (⟨1, 0⟩, ⟨1, 0, [""]⟩) := by
  decide

/-! ## General correctness of the main.py worker pool -/

/-- Weight 1 on workers that hold a dequeued unit not yet counted. -/
def wDeq : Wpc → Nat
  | .work => 1
  | _ => 0

/-- Weight 1 on workers that hold a dequeued unit not yet task_done. -/
def wPend : Wpc → Nat
  | .work => 1
  | .tdone => 1
  | _ => 0

/-- Weight 1 on program points the main.py worker never occupies. -/
def wBad : Wpc → Nat
  | .excInc => 1
  | .crashed => 1
  | _ => 0

/-- Total weight of a worker list. -/
def wsum (f : Wpc → Nat) (ws : List Wpc) : Nat :=
  (ws.map f).sum

/-- Replacing one element changes the total weight by the difference of the
two weights, stated additively. -/
theorem wsum_set (f : Wpc → Nat) (l : List Wpc) (i : Nat) (a b : Wpc)
    (h : l.get? i = some a) :
    wsum f (l.set i b) + f a = wsum f l + f b := by
  induction l generalizing i with
  | nil => simp at h
  | cons x xs ih =>
    cases i with
    | zero =>
      simp only [List.get?] at h
      injection h with h
      subst h
      simp [wsum, List.set]
      omega
    | succ j =>
      simp only [List.get?] at h
      have e := ih j h
      simp only [List.set, wsum, List.map_cons, List.sum_cons]
      simp only [wsum] at e
      omega

/-- An element reachable by index contributes at most the total weight. -/
theorem wsum_le (f : Wpc → Nat) (l : List Wpc) (i : Nat) (a : Wpc)
    (h : l.get? i = some a) :
    f a ≤ wsum f l := by
  induction l generalizing i with
  | nil => simp at h
  | cons x xs ih =>
    cases i with
    | zero =>
      simp only [List.get?] at h
      injection h with h
      subst h
      simp only [wsum, List.map_cons, List.sum_cons]
      omega
    | succ j =>
      simp only [List.get?] at h
      have e := ih j h
      simp only [wsum, List.map_cons, List.sum_cons]
      simp only [wsum] at e
      omega

/-- Pointwise domination of weights gives domination of totals. -/
theorem wsum_mono (f g : Wpc → Nat) (l : List Wpc) (h : ∀ pc, f pc ≤ g pc) :
    wsum f l ≤ wsum g l := by
  induction l with
  | nil => simp [wsum]
  | cons x xs ih =>
    simp only [wsum, List.map_cons, List.sum_cons]
    simp only [wsum] at ih
    have := h x
    omega

/-- The inductive invariant of a main.py run with n pre-loaded units:
counted outcomes plus in-flight dequeued units plus queued units account for
all n units; the unfinished count of queue.join equals the queued units plus
the dequeued ones not yet task_done; no worker occupies the
except-increment or crashed points. -/
def InvA (n : Nat) (s : RunState) : Prop :=
  s.sh.success + s.sh.errors + wsum wDeq s.workers + s.sh.queue = n
  ∧ s.sh.unfinished = s.sh.queue + wsum wPend s.workers
  ∧ wsum wBad s.workers = 0

/-- Every atomic action of a main.py worker preserves the invariant. -/
theorem stepA_preserves {n : Nat} {s t : RunState} {i : Nat} {ok : Bool}
    (hinv : InvA n s) (h : stepRun stepPcA s i ok = some t) : InvA n t := by
  rcases hinv with ⟨h1, h2, h3⟩
  unfold stepRun at h
  rcases hget : s.workers.get? i with _ | pc
  · rw [hget] at h
    exact absurd h (by simp)
  · rw [hget] at h
    cases pc with
    | head =>
      simp only [stepPcA] at h
      injection h with h
      subst h
      by_cases hq : s.sh.queue = 0
      · rw [if_pos hq]
        have eD := wsum_set wDeq s.workers i Wpc.head Wpc.done hget
        have eP := wsum_set wPend s.workers i Wpc.head Wpc.done hget
        have eB := wsum_set wBad s.workers i Wpc.head Wpc.done hget
        have r1 : wDeq Wpc.head = 0 := rfl
        have r2 : wDeq Wpc.done = 0 := rfl
        have r3 : wPend Wpc.head = 0 := rfl
        have r4 : wPend Wpc.done = 0 := rfl
        have r5 : wBad Wpc.head = 0 := rfl
        have r6 : wBad Wpc.done = 0 := rfl
        exact ⟨by dsimp only; omega, by dsimp only; omega, by dsimp only; omega⟩
      · rw [if_neg hq]
        have eD := wsum_set wDeq s.workers i Wpc.head Wpc.getTry hget
        have eP := wsum_set wPend s.workers i Wpc.head Wpc.getTry hget
        have eB := wsum_set wBad s.workers i Wpc.head Wpc.getTry hget
        have r1 : wDeq Wpc.head = 0 := rfl
        have r2 : wDeq Wpc.getTry = 0 := rfl
        have r3 : wPend Wpc.head = 0 := rfl
        have r4 : wPend Wpc.getTry = 0 := rfl
        have r5 : wBad Wpc.head = 0 := rfl
        have r6 : wBad Wpc.getTry = 0 := rfl
        exact ⟨by dsimp only; omega, by dsimp only; omega, by dsimp only; omega⟩
    | getTry =>
      simp only [stepPcA] at h
      by_cases hq : s.sh.queue = 0
      · rw [if_pos hq] at h
        injection h with h
        subst h
        have eD := wsum_set wDeq s.workers i Wpc.getTry Wpc.done hget
        have eP := wsum_set wPend s.workers i Wpc.getTry Wpc.done hget
        have eB := wsum_set wBad s.workers i Wpc.getTry Wpc.done hget
        have r1 : wDeq Wpc.getTry = 0 := rfl
        have r2 : wDeq Wpc.done = 0 := rfl
        have r3 : wPend Wpc.getTry = 0 := rfl
        have r4 : wPend Wpc.done = 0 := rfl
        have r5 : wBad Wpc.getTry = 0 := rfl
        have r6 : wBad Wpc.done = 0 := rfl
        exact ⟨by dsimp only; omega, by dsimp only; omega, by dsimp only; omega⟩
      · rw [if_neg hq] at h
        injection h with h
        subst h
        have eD := wsum_set wDeq s.workers i Wpc.getTry Wpc.work hget
        have eP := wsum_set wPend s.workers i Wpc.getTry Wpc.work hget
        have eB := wsum_set wBad s.workers i Wpc.getTry Wpc.work hget
        have r1 : wDeq Wpc.getTry = 0 := rfl
        have r2 : wDeq Wpc.work = 1 := rfl
        have r3 : wPend Wpc.getTry = 0 := rfl
        have r4 : wPend Wpc.work = 1 := rfl
        have r5 : wBad Wpc.getTry = 0 := rfl
        have r6 : wBad Wpc.work = 0 := rfl
        exact ⟨by dsimp only; omega, by dsimp only; omega, by dsimp only; omega⟩
    | work =>
      simp only [stepPcA] at h
      have eD := wsum_set wDeq s.workers i Wpc.work Wpc.tdone hget
      have eP := wsum_set wPend s.workers i Wpc.work Wpc.tdone hget
      have eB := wsum_set wBad s.workers i Wpc.work Wpc.tdone hget
      have r1 : wDeq Wpc.work = 1 := rfl
      have r2 : wDeq Wpc.tdone = 0 := rfl
      have r3 : wPend Wpc.work = 1 := rfl
      have r4 : wPend Wpc.tdone = 1 := rfl
      have r5 : wBad Wpc.work = 0 := rfl
      have r6 : wBad Wpc.tdone = 0 := rfl
      cases ok with
      | true =>
        rw [if_pos rfl] at h
        injection h with h
        subst h
        exact ⟨by dsimp only; omega, by dsimp only; omega, by dsimp only; omega⟩
      | false =>
        simp only [Bool.false_eq_true, if_neg, if_false] at h
        injection h with h
        subst h
        exact ⟨by dsimp only; omega, by dsimp only; omega, by dsimp only; omega⟩
    | excInc =>
      have hb := wsum_le wBad s.workers i Wpc.excInc hget
      have r : wBad Wpc.excInc = 1 := rfl
      omega
    | tdone =>
      simp only [stepPcA] at h
      have hp := wsum_le wPend s.workers i Wpc.tdone hget
      have r0 : wPend Wpc.tdone = 1 := rfl
      have hu : s.sh.unfinished ≠ 0 := by omega
      rw [if_neg hu] at h
      injection h with h
      subst h
      have eD := wsum_set wDeq s.workers i Wpc.tdone Wpc.head hget
      have eP := wsum_set wPend s.workers i Wpc.tdone Wpc.head hget
      have eB := wsum_set wBad s.workers i Wpc.tdone Wpc.head hget
      have r1 : wDeq Wpc.tdone = 0 := rfl
      have r2 : wDeq Wpc.head = 0 := rfl
      have r3 : wPend Wpc.head = 0 := rfl
      have r5 : wBad Wpc.tdone = 0 := rfl
      have r6 : wBad Wpc.head = 0 := rfl
      exact ⟨by dsimp only; omega, by dsimp only; omega, by dsimp only; omega⟩
    | done => exact absurd h (by simp [stepPcA])
    | crashed => exact absurd h (by simp [stepPcA])

/-- Reachability under the main.py worker semantics. -/
inductive ReachesA : RunState → RunState → Prop where
  | refl (s : RunState) : ReachesA s s
  | step {s t u : RunState} {i : Nat} {ok : Bool} :
      ReachesA s t → stepRun stepPcA t i ok = some u → ReachesA s u

/-- The invariant holds in the initial state of a run with k workers and n
units. -/
theorem invA_init (n k : Nat) : InvA n (mkRunState (k : Int) (n : Int)) := by
  refine ⟨?_, ?_, ?_⟩ <;>
    simp [InvA, mkRunState, wsum, List.map_replicate, wDeq, wPend, wBad]

/-- Exact counting for the main.py worker variant: on every schedule of a
run with k workers and n pre-loaded units, every reachable state satisfies
the invariant, and in any reachable state where queue.join can return
(unfinished = 0) the two counters sum to exactly n. -/
theorem mainWorker_counts_exact (n k : Nat) (s : RunState)
    (h : ReachesA (mkRunState (k : Int) (n : Int)) s) :
    InvA n s ∧ (s.sh.unfinished = 0 → s.sh.success + s.sh.errors = n) := by
  have hinv : InvA n s := by
    induction h with
    | refl => exact invA_init n k
    | step hr hstep ih => exact stepA_preserves ih hstep
  refine ⟨hinv, fun hj => ?_⟩
  rcases hinv with ⟨h1, h2, h3⟩
  have hle : wsum wDeq s.workers ≤ wsum wPend s.workers :=
    wsum_mono wDeq wPend s.workers (fun pc => by cases pc <;> decide)
  omega
